import Mathlib

/-!
# Verification of the nvquery incremental sampler

Shallow embedding of `src/nvquery/nvquery.py` (class `NvmlReader`), the
incremental NVML sampler / per-device log writer.  The external NVML
capability (pynvml) is modelled as function parameters: handle acquisition,
log-file opening, a probe query, and a per-call sample query.  Python
exceptions are modelled explicitly: `pynvml.NVMLError` is the only exception
caught by the `try` blocks of `log_samples` / `set_last_seen`; all other
exceptions (IndexError from `samples[-1]` on an empty list, TypeError from
`getattr(x, None)`) propagate out of the method, leaving the mutations made
so far in place.
-/

namespace NvQuery

/-- Python exception values relevant to the embedded code. -/
inductive PyError where
  | valueError (msg : String)
  | runtimeError (msg : String)
  | nvmlError (msg : String)
  | indexError
  | typeError (msg : String)
  | attributeError (msg : String)
  | osError (msg : String)
  deriving DecidableEq, Repr

/-- NVML sampling-type constants (values from nvml.h via pynvml). -/
def NVML_TOTAL_POWER_SAMPLES : Nat := 0

def NVML_GPU_UTILIZATION_SAMPLES : Nat := 1

def NVML_MEMORY_UTILIZATION_SAMPLES : Nat := 2

def NVML_ENC_UTILIZATION_SAMPLES : Nat := 3

def NVML_DEC_UTILIZATION_SAMPLES : Nat := 4

def NVML_PROCESSOR_CLK_SAMPLES : Nat := 5

def NVML_MEMORY_CLK_SAMPLES : Nat := 6

/-- `_SAMPLE_VALUE_TYPE_TO_FIELD` from the source: maps the NVML value-type
tag to the name of the union field used to decode a sample's value. -/
def SAMPLE_VALUE_TYPE_TO_FIELD (t : Nat) : Option String :=
  match t with
  | 0 => some "dVal"
  | 1 => some "uiVal"
  | 2 => some "ulVal"
  | 3 => some "ullVal"
  | 4 => some "sllVal"
  | 5 => some "siVal"
  | 6 => some "usVal"
  | _ => none

/-- `_SAMPLING_TYPE_TO_HEADER` from the source: maps the sampling type to
the human-readable metric label used in the CSV header. -/
def SAMPLING_TYPE_TO_HEADER (t : Nat) : Option String :=
  if t = NVML_TOTAL_POWER_SAMPLES then some "Power"
  else if t = NVML_MEMORY_UTILIZATION_SAMPLES then some "Memory Util"
  else if t = NVML_GPU_UTILIZATION_SAMPLES then some "GPU Util"
  else if t = NVML_PROCESSOR_CLK_SAMPLES then some "GPU Clk"
  else if t = NVML_MEMORY_CLK_SAMPLES then some "Memory Clk"
  else none

/-- The membership test at the top of `NvmlReader.__init__`. -/
def SUPPORTED_SAMPLING_TYPES : List Nat :=
  [NVML_TOTAL_POWER_SAMPLES, NVML_MEMORY_UTILIZATION_SAMPLES,
   NVML_GPU_UTILIZATION_SAMPLES, NVML_PROCESSOR_CLK_SAMPLES,
   NVML_MEMORY_CLK_SAMPLES]

/-- The `nvmlSample_t.sampleValue` union: all seven fields coexist; the
probed field name selects which one is read.  Payloads are modelled as
integers (the claims under verification do not depend on float semantics). -/
structure SampleValue where
  dVal : Int
  uiVal : Int
  ulVal : Int
  ullVal : Int
  sllVal : Int
  siVal : Int
  usVal : Int
  deriving DecidableEq, Repr

/-- `getattr(sampleValue, f)` for a string field name: succeeds exactly on
the seven union fields. -/
def SampleValue.getattrOpt (v : SampleValue) (f : String) : Option Int :=
  if f = "dVal" then some v.dVal
  else if f = "uiVal" then some v.uiVal
  else if f = "ulVal" then some v.ulVal
  else if f = "ullVal" then some v.ullVal
  else if f = "sllVal" then some v.sllVal
  else if f = "siVal" then some v.siVal
  else if f = "usVal" then some v.usVal
  else none

/-- A single NVML sample: `(timeStamp, sampleValue)`. -/
structure Sample where
  timeStamp : Int
  sampleValue : SampleValue
  deriving DecidableEq, Repr

/-- A sample value whose seven fields are all `x`; convenient for tests. -/
def mkVal (x : Int) : SampleValue := ⟨x, x, x, x, x, x, x⟩

/-- A sample with timestamp `t` and all value fields `x`. -/
def mkSample (t : Int) (x : Int) : Sample := ⟨t, mkVal x⟩

/-- One per-device log file: the chunks written so far (each `write` call
appends one string) and whether `close()` has been called. -/
structure LogFile where
  content : List String
  closed : Bool
  deriving DecidableEq, Repr

/-- `file.write(s)`. -/
def LogFile.write (l : LogFile) (s : String) : LogFile :=
  { l with content := l.content ++ [s] }

/-- `file.close()`. -/
def LogFile.close (l : LogFile) : LogFile :=
  { l with closed := true }

/-- `open(filename, "w")`: a fresh, truncated, open file. -/
def LogFile.fresh : LogFile := ⟨[], false⟩

/-- `getattr(sample.sampleValue, self.field)`: `self.field` is `None` when
the probed value-type tag was unknown (→ TypeError), a union field name
otherwise (→ the payload), and any other string would raise AttributeError. -/
def decodeValue (field : Option String) (v : SampleValue) : Except PyError Int :=
  match field with
  | none => .error (.typeError "attribute name must be string, not NoneType")
  | some f =>
    match v.getattrOpt f with
    | some x => .ok x
    | none => .error (.attributeError f)

/-- The state of an `NvmlReader` instance (handles are opaque `Nat`s). -/
structure NvmlReader where
  sampling_type : Nat
  device_count : Nat
  handles : List Nat
  logs : List LogFile
  last_sample_time : Int
  field : Option String
  metric : Option String
  deriving DecidableEq, Repr

/-- `pynvml.nvmlDeviceGetSamples(device, sampling_type, timeStamp)` modelled
as a function of the device handle and the `timeStamp` argument, returning
either an NVML error message or `(sample_value_type, samples)`. -/
def QueryFn : Type := Nat → Int → Except String (Nat × List Sample)

/-- The external-capability inputs consumed by `NvmlReader.__init__`. -/
structure InitEnv where
  deviceCount : Nat
  getHandle : Nat → Except String Nat
  openLog : String → Except String Unit
  probe : Nat → Except String (Nat × List Sample)

/-- The handle-acquisition loop of `__init__`: acquires handles for indices
`start, start+1, ...` up to `count`; an NVML error propagates immediately. -/
def acquireHandles (get : Nat → Except String Nat) : Nat → Nat → Except String (List Nat)
  | _, 0 => .ok []
  | start, n + 1 =>
    match get start with
    | .error e => .error e
    | .ok h =>
      match acquireHandles get (start + 1) n with
      | .error e => .error e
      | .ok hs => .ok (h :: hs)

/-- The log filename `log_file_base_name + "_" + str(idx) + ".csv"`. -/
def logName (base : String) (idx : Nat) : String :=
  base ++ "_" ++ toString idx ++ ".csv"

/-- The log-opening loop of `__init__`: opens `"{base}_{idx}.csv"` for each
index; on failure reports the OS error and the number of files already
opened (which the source never closes). -/
def openLogs (op : String → Except String Unit) (base : String) :
    Nat → Nat → Except (String × Nat) (List LogFile)
  | _, 0 => .ok []
  | idx, n + 1 =>
    match op (logName base idx) with
    | .error e => .error (e, 0)
    | .ok _ =>
      match openLogs op base (idx + 1) n with
      | .error (e, k) => .error (e, k + 1)
      | .ok ls => .ok (LogFile.fresh :: ls)

/-- `NvmlReader.__init__`.  On failure the result carries the raised
exception together with the number of log files left open at the raise
point (the source closes nothing on its error paths). -/
def NvmlReader.init (env : InitEnv) (log_file_base_name : String)
    (sampling_type : Nat) : Except (PyError × Nat) NvmlReader :=
  if sampling_type ∈ SUPPORTED_SAMPLING_TYPES then
    match acquireHandles env.getHandle 0 env.deviceCount with
    | .error e => .error (.nvmlError e, 0)
    | .ok handles =>
      if handles.length ≠ env.deviceCount then
        .error (.runtimeError "Failed to get all device handles", 0)
      else
        match openLogs env.openLog log_file_base_name 0 handles.length with
        | .error (e, k) => .error (.osError e, k)
        | .ok logs =>
          match handles[0]? with
          | none => .error (.indexError, logs.length)
          | some h0 =>
            match env.probe h0 with
            | .error e => .error (.nvmlError e, logs.length)
            | .ok (sample_value_type, _) =>
              .ok { sampling_type := sampling_type
                    device_count := env.deviceCount
                    handles := handles
                    logs := logs
                    last_sample_time := 0
                    field := SAMPLE_VALUE_TYPE_TO_FIELD sample_value_type
                    metric := SAMPLING_TYPE_TO_HEADER sampling_type }
  else
    .error (.valueError "Illegal or unsupported sampling type", 0)

/-- Python's rendering of `self.metric` inside the f-string (`None` prints
as "None"). -/
def metricStr : Option String → String
  | some s => s
  | none => "None"

/-- `NvmlReader.log_header`: appends `"Time,{metric}\n"` to every log. -/
def NvmlReader.log_header (r : NvmlReader) : NvmlReader :=
  { r with logs := r.logs.map (fun l => l.write ("Time," ++ metricStr r.metric ++ "\n")) }

/-- `NvmlReader.__exit__`: closes every log.  It does not touch the NVML
library state, which is threaded through as `nvmlActive`. -/
def NvmlReader.exitCM (r : NvmlReader) (nvmlActive : Bool) : NvmlReader × Bool :=
  ({ r with logs := r.logs.map LogFile.close }, nvmlActive)

/-- The rendered CSV line `f"{sample.timeStamp},{value}\n"`. -/
def sampleLine (t : Int) (v : Int) : String :=
  toString t ++ "," ++ toString v ++ "\n"

/-- The per-sample write loop of `log_samples`: for each sample in order,
decode the value via `getattr` and append one line to `logs[id]`.  An
exception (TypeError / AttributeError from `getattr`, IndexError from
`logs[id]`) stops the loop, leaving earlier writes in place. -/
def writeSamplesAt (field : Option String) (id : Nat) :
    List Sample → List LogFile → List LogFile × Option PyError
  | [], logs => (logs, none)
  | s :: rest, logs =>
    match logs[id]? with
    | none => (logs, some .indexError)
    | some l =>
      match decodeValue field s.sampleValue with
      | .error e => (logs, some e)
      | .ok v =>
        writeSamplesAt field id rest (logs.set id (l.write (sampleLine s.timeStamp v)))

/-- One iteration of the device loop in `log_samples`: query, set the shared
watermark to `samples[-1].timeStamp`, write the lines.  Returns the new
watermark, logs, emitted warnings and the uncaught exception, if any.
`samples[-1]` on an empty list raises IndexError, which the `except
pynvml.NVMLError` clause does not catch. -/
def logSamplesDevice (q : QueryFn) (field : Option String) (id : Nat)
    (handle : Nat) (wm : Int) (logs : List LogFile) :
    Int × List LogFile × List String × Option PyError :=
  match q handle wm with
  | .error e => (wm, logs, ["WARNING nvml error during sampling: " ++ e], none)
  | .ok (_, samples) =>
    match samples.getLast? with
    | none => (wm, logs, [], some .indexError)
    | some last =>
      let res := writeSamplesAt field id samples logs
      (last.timeStamp, res.1, [], res.2)

/-- The device loop of `log_samples`: processes handles in index order; an
uncaught exception aborts the remaining devices but keeps the mutations
already made. -/
def logSamplesGo (q : QueryFn) (field : Option String) :
    List Nat → Nat → Int → List LogFile → List String →
    Int × List LogFile × List String × Option PyError
  | [], _, wm, logs, ws => (wm, logs, ws, none)
  | h :: rest, id, wm, logs, ws =>
    match logSamplesDevice q field id h wm logs with
    | (wm2, logs2, w2, none) => logSamplesGo q field rest (id + 1) wm2 logs2 (ws ++ w2)
    | (wm2, logs2, w2, some e) => (wm2, logs2, ws ++ w2, some e)

/-- `NvmlReader.log_samples`: returns the updated reader, the warnings
printed, and the uncaught exception when the method raised. -/
def NvmlReader.log_samples (q : QueryFn) (r : NvmlReader) :
    NvmlReader × List String × Option PyError :=
  match logSamplesGo q r.field r.handles 0 r.last_sample_time r.logs [] with
  | (wm, logs, ws, err) =>
    ({ r with last_sample_time := wm, logs := logs }, ws, err)

/-- The device loop of `set_last_seen`: like `log_samples` but never writes;
`samples[-1]` on an empty list still raises IndexError. -/
def setLastSeenGo (q : QueryFn) :
    List Nat → Int → List String → Int × List String × Option PyError
  | [], wm, ws => (wm, ws, none)
  | h :: rest, wm, ws =>
    match q h wm with
    | .error e => setLastSeenGo q rest wm (ws ++ ["WARNING nvml error: " ++ e])
    | .ok (_, samples) =>
      match samples.getLast? with
      | none => (wm, ws, some .indexError)
      | some last => setLastSeenGo q rest last.timeStamp ws

/-- `NvmlReader.set_last_seen`. -/
def NvmlReader.set_last_seen (q : QueryFn) (r : NvmlReader) :
    NvmlReader × List String × Option PyError :=
  match setLastSeenGo q r.handles r.last_sample_time [] with
  | (wm, ws, err) => ({ r with last_sample_time := wm }, ws, err)

/-! ## Concrete scenarios (the spec's end-to-end scenario and variants) -/

/-- Construction environment of the end-to-end scenario: two devices whose
handles are their indices, log opening always succeeds, the probe reports
value type 0 (`dVal`). -/
def envE2E : InitEnv where
  deviceCount := 2
  getHandle := fun i => .ok i
  openLog := fun _ => .ok ()
  probe := fun _ => .ok (0, [mkSample 1 0])

/-- The freshly constructed two-device power sampler of the scenario. -/
def readerE2E : NvmlReader where
  sampling_type := NVML_TOTAL_POWER_SAMPLES
  device_count := 2
  handles := [0, 1]
  logs := [LogFile.fresh, LogFile.fresh]
  last_sample_time := 0
  field := some "dVal"
  metric := some "Power"

/-- Poll cycle 1 of the scenario: device 0 yields three samples
`(100,5000), (200,5200), (300,5100)` when polled from a watermark below
100; device 1's query fails with an NVML error. -/
def qCycle1 : QueryFn := fun h t =>
  if h = 0 then
    if t < 100 then .ok (0, [mkSample 100 5000, mkSample 200 5200, mkSample 300 5100])
    else .error "Uninitialized"
  else .error "device is lost"

/-- `pat` is a prefix of `cs` (on character lists). -/
def listStartsWith : List Char → List Char → Bool
  | [], _ => true
  | _ :: _, [] => false
  | p :: ps, c :: cs => p == c && listStartsWith ps cs

/-- `pat` occurs somewhere inside `cs` (on character lists). -/
def listContains (pat : List Char) : List Char → Bool
  | [] => listStartsWith pat []
  | c :: cs => listStartsWith pat (c :: cs) || listContains pat cs

/-- Substring occurrence, used to state whether a warning message names a
device index. -/
def containsSubstr (s pat : String) : Bool :=
  listContains pat.data s.data

/-! ## Helper lemmas -/

theorem list_mem_of_getLast? {α : Type} {l : List α} {a : α}
    (h : l.getLast? = some a) : a ∈ l := by
  induction l with
  | nil => simp at h
  | cons x xs ih =>
    cases xs with
    | nil => simp_all [List.getLast?]
    | cons y ys =>
      rw [List.getLast?_cons_cons] at h
      exact List.mem_cons_of_mem x (ih h)

theorem list_set_getElem?_self {α : Type} :
    ∀ (l : List α) (i : Nat) (a : α), l[i]? = some a → l.set i a = l := by
  intro l
  induction l with
  | nil => intro i a h; simp at h
  | cons x xs ih =>
    intro i a h
    cases i with
    | zero => simp_all
    | succ j => simp_all [List.set]

/-- The success or failure of `getattr(v, f)` depends only on the field
name, not on the sample value. -/
theorem getattrOpt_isSome_congr (v w : SampleValue) (f : String) :
    (v.getattrOpt f).isSome = (w.getattrOpt f).isSome := by
  unfold SampleValue.getattrOpt
  split_ifs <;> rfl

/-- Whether decoding succeeds depends only on the probed field. -/
def decodeOkB (field : Option String) : Bool :=
  match field with
  | none => false
  | some f => ((mkVal 0).getattrOpt f).isSome

theorem decodeValue_ok_of_decodeOkB (field : Option String)
    (h : decodeOkB field = true) (v : SampleValue) :
    ∃ x, decodeValue field v = .ok x := by
  cases field with
  | none => simp [decodeOkB] at h
  | some f =>
    simp only [decodeOkB] at h
    have h2 : (v.getattrOpt f).isSome = true :=
      (getattrOpt_isSome_congr v (mkVal 0) f).trans h
    rcases Option.isSome_iff_exists.mp h2 with ⟨x, hx⟩
    exact ⟨x, by simp [decodeValue, hx]⟩

theorem decodeValue_error_of_not_decodeOkB (field : Option String)
    (h : decodeOkB field = false) (v : SampleValue) :
    ∃ e, decodeValue field v = .error e := by
  cases field with
  | none => exact ⟨_, rfl⟩
  | some f =>
    simp only [decodeOkB] at h
    have h2 : (v.getattrOpt f).isSome = false :=
      (getattrOpt_isSome_congr v (mkVal 0) f).trans h
    have h3 : v.getattrOpt f = none := Option.not_isSome_iff_eq_none.mp (by simp [h2])
    exact ⟨.attributeError f, by simp [decodeValue, h3]⟩

/-- The decoded value (defaulting to 0, which never occurs when decoding
succeeds). -/
def decodeD (field : Option String) (v : SampleValue) : Int :=
  match decodeValue field v with
  | .ok x => x
  | .error _ => 0

/-- The lines rendered from a list of `(timestamp, value)` pairs. -/
def linesOf (ps : List (Int × Int)) : List String :=
  ps.map (fun p => sampleLine p.1 p.2)

/-- The `(timestamp, decoded value)` pairs of a sample list. -/
def pairsOf (field : Option String) (ss : List Sample) : List (Int × Int) :=
  ss.map (fun s => (s.timeStamp, decodeD field s.sampleValue))

/-- When decoding succeeds, the write loop appends one line per sample to
`logs[id]`, in order, and raises nothing. -/
theorem writeSamplesAt_ok (field : Option String) (hf : decodeOkB field = true)
    (id : Nat) :
    ∀ (ss : List Sample) (logs : List LogFile) (l : LogFile), logs[id]? = some l →
      writeSamplesAt field id ss logs =
        (logs.set id { l with content := l.content ++ linesOf (pairsOf field ss) }, none) := by
  intro ss
  induction ss with
  | nil =>
    intro logs l hl
    simp only [writeSamplesAt, pairsOf, linesOf, List.map_nil, List.append_nil]
    rw [list_set_getElem?_self logs id l hl]
  | cons s rest ih =>
    intro logs l hl
    rcases decodeValue_ok_of_decodeOkB field hf s.sampleValue with ⟨x, hx⟩
    have hid : id < logs.length := (List.getElem?_eq_some.mp hl).1
    have hset : (logs.set id (l.write (sampleLine s.timeStamp x)))[id]? =
        some (l.write (sampleLine s.timeStamp x)) :=
      List.getElem?_set_eq_of_lt _ hid
    have hx' : decodeD field s.sampleValue = x := by simp [decodeD, hx]
    simp only [writeSamplesAt, hl, hx]
    rw [ih (logs.set id (l.write (sampleLine s.timeStamp x))) _ hset]
    rw [List.set_set]
    simp [LogFile.write, pairsOf, linesOf, hx']

/-- When decoding fails (unknown value-type tag at construction), the write
loop writes nothing and raises at the first sample. -/
theorem writeSamplesAt_bad (field : Option String) (hf : decodeOkB field = false)
    (id : Nat) (s : Sample) (rest : List Sample) (logs : List LogFile) :
    (writeSamplesAt field id (s :: rest) logs).1 = logs := by
  rcases decodeValue_error_of_not_decodeOkB field hf s.sampleValue with ⟨e, he⟩
  cases hl : logs[id]? with
  | none => simp [writeSamplesAt, hl]
  | some l => simp [writeSamplesAt, hl, he]

/-- The write loop touches no log other than `logs[id]`. -/
theorem writeSamplesAt_getElem?_ne (field : Option String) (id : Nat) :
    ∀ (ss : List Sample) (logs : List LogFile) (j : Nat), j ≠ id →
      (writeSamplesAt field id ss logs).1[j]? = logs[j]? := by
  intro ss
  induction ss with
  | nil => intro logs j _; rfl
  | cons s rest ih =>
    intro logs j hj
    cases hl : logs[id]? with
    | none => simp [writeSamplesAt, hl]
    | some l =>
      cases hd : decodeValue field s.sampleValue with
      | error e => simp [writeSamplesAt, hl, hd]
      | ok x =>
        simp only [writeSamplesAt, hl, hd]
        rw [ih _ j hj, List.getElem?_set_ne (fun h => hj h.symm)]

/-- The capability contract assumed by the spec: every successful query
returns only samples strictly newer than the requested `since` timestamp,
in strictly increasing timestamp order. -/
def StrictSamples (q : QueryFn) : Prop :=
  ∀ h t vt ss, q h t = .ok (vt, ss) →
    (∀ s ∈ ss, t < s.timeStamp) ∧
    List.Chain' (fun a b => a.timeStamp < b.timeStamp) ss

/-- The weaker contract: returned samples are strictly newer than `since`. -/
def QueryNewer (q : QueryFn) : Prop :=
  ∀ h t vt ss, q h t = .ok (vt, ss) → ∀ s ∈ ss, t < s.timeStamp

theorem StrictSamples.queryNewer {q : QueryFn} (h : StrictSamples q) :
    QueryNewer q :=
  fun hd t vt ss hq => (h hd t vt ss hq).1

/-- In a strictly increasing sample list, the last sample has the maximal
timestamp. -/
theorem chain_lt_le_getLast :
    ∀ (ss : List Sample),
      List.Chain' (fun a b => a.timeStamp < b.timeStamp) ss →
      ∀ last, ss.getLast? = some last → ∀ s ∈ ss, s.timeStamp ≤ last.timeStamp := by
  intro ss
  induction ss with
  | nil => intro _ last hl; simp at hl
  | cons a tail ih =>
    intro hchain last hl s hs
    cases tail with
    | nil =>
      simp [List.getLast?] at hl
      simp at hs
      rw [hs, hl]
    | cons b t =>
      rw [List.getLast?_cons_cons] at hl
      rw [List.chain'_cons] at hchain
      rcases List.mem_cons.mp hs with h1 | h2
      · subst h1
        have hb : b.timeStamp ≤ last.timeStamp :=
          ih hchain.2 last hl b (List.mem_cons_self b t)
        exact le_trans (le_of_lt hchain.1) hb
      · exact ih hchain.2 last hl s h2

/-- One device step never touches another device's log. -/
theorem logSamplesDevice_getElem?_ne (q : QueryFn) (field : Option String)
    (id h : Nat) (wm : Int) (logs : List LogFile) (j : Nat) (hj : j ≠ id) :
    (logSamplesDevice q field id h wm logs).2.1[j]? = logs[j]? := by
  cases hq : q h wm with
  | error e => simp [logSamplesDevice, hq]
  | ok p =>
    cases hl : p.2.getLast? with
    | none => simp [logSamplesDevice, hq, hl]
    | some last =>
      simp only [logSamplesDevice, hq, hl]
      exact writeSamplesAt_getElem?_ne field id p.2 logs j hj

/-- The device loop never touches log positions below its starting index. -/
theorem logSamplesGo_getElem?_lt (q : QueryFn) (field : Option String) :
    ∀ (hs : List Nat) (id : Nat) (wm : Int) (logs : List LogFile)
      (ws : List String) (j : Nat), j < id →
      (logSamplesGo q field hs id wm logs ws).2.1[j]? = logs[j]? := by
  intro hs
  induction hs with
  | nil => intro id wm logs ws j _; rfl
  | cons h rest ih =>
    intro id wm logs ws j hj
    have hne : j ≠ id := Nat.ne_of_lt hj
    have hdev := logSamplesDevice_getElem?_ne q field id h wm logs j hne
    rcases hd : logSamplesDevice q field id h wm logs with ⟨wm2, logs2, w2, err⟩
    rw [hd] at hdev
    cases err with
    | none =>
      simp only [logSamplesGo, hd]
      rw [ih (id + 1) wm2 logs2 (ws ++ w2) j (Nat.lt_succ_of_lt hj)]
      exact hdev
    | some e => simpa [logSamplesGo, hd] using hdev

/-- A device whose query always fails never has its log touched by
`log_samples`. -/
theorem logSamplesGo_error_device_unchanged (q : QueryFn) (field : Option String) :
    ∀ (hs : List Nat) (id : Nat) (wm : Int) (logs : List LogFile)
      (ws : List String) (j : Nat) (h : Nat), hs[j]? = some h →
      (∀ t, ∃ e, q h t = .error e) →
      (logSamplesGo q field hs id wm logs ws).2.1[id + j]? = logs[id + j]? := by
  intro hs
  induction hs with
  | nil => intro id wm logs ws j h hj _; simp at hj
  | cons h0 rest ih =>
    intro id wm logs ws j h hj hfail
    cases j with
    | zero =>
      have hh : h0 = h := by simpa using hj
      rcases hfail wm with ⟨e, he⟩
      rw [hh]
      simp only [logSamplesGo, logSamplesDevice, he]
      exact logSamplesGo_getElem?_lt q field rest (id + 1) wm logs
        (ws ++ ["WARNING nvml error during sampling: " ++ e]) (id + 0) (by omega)
    | succ j' =>
      have hj' : rest[j']? = some h := by simpa using hj
      have hne : id + (j' + 1) ≠ id := by omega
      have hdev := logSamplesDevice_getElem?_ne q field id h0 wm logs (id + (j' + 1)) hne
      rcases hd : logSamplesDevice q field id h0 wm logs with ⟨wm2, logs2, w2, err⟩
      rw [hd] at hdev
      cases err with
      | none =>
        simp only [logSamplesGo, hd]
        have heq : (id + 1) + j' = id + (j' + 1) := by omega
        have := ih (id + 1) wm2 logs2 (ws ++ w2) j' h hj' hfail
        rw [heq] at this
        rw [this]
        exact hdev
      | some e => simpa [logSamplesGo, hd] using hdev

/-- Under the newer-than-since contract, one device step never moves the
shared watermark backwards. -/
theorem logSamplesDevice_wm_mono (q : QueryFn) (hq : QueryNewer q)
    (field : Option String) (id h : Nat) (wm : Int) (logs : List LogFile) :
    wm ≤ (logSamplesDevice q field id h wm logs).1 := by
  cases hqr : q h wm with
  | error e => simp [logSamplesDevice, hqr]
  | ok p =>
    cases hl : p.2.getLast? with
    | none => simp [logSamplesDevice, hqr, hl]
    | some last =>
      simp only [logSamplesDevice, hqr, hl]
      exact le_of_lt (hq h wm p.1 p.2 hqr last (list_mem_of_getLast? hl))

/-- Under the newer-than-since contract, the device loop never moves the
shared watermark backwards. -/
theorem logSamplesGo_wm_mono (q : QueryFn) (hq : QueryNewer q)
    (field : Option String) :
    ∀ (hs : List Nat) (id : Nat) (wm : Int) (logs : List LogFile)
      (ws : List String), wm ≤ (logSamplesGo q field hs id wm logs ws).1 := by
  intro hs
  induction hs with
  | nil => intro id wm logs ws; exact le_refl wm
  | cons h rest ih =>
    intro id wm logs ws
    have hdev := logSamplesDevice_wm_mono q hq field id h wm logs
    rcases hd : logSamplesDevice q field id h wm logs with ⟨wm2, logs2, w2, err⟩
    rw [hd] at hdev
    cases err with
    | none =>
      simp only [logSamplesGo, hd]
      exact le_trans hdev (ih (id + 1) wm2 logs2 (ws ++ w2))
    | some e => simpa [logSamplesGo, hd] using hdev

/-- If every query fails, the device loop leaves the watermark unchanged. -/
theorem logSamplesGo_wm_allfail (q : QueryFn)
    (hq : ∀ h t, ∃ e, q h t = .error e) (field : Option String) :
    ∀ (hs : List Nat) (id : Nat) (wm : Int) (logs : List LogFile)
      (ws : List String), (logSamplesGo q field hs id wm logs ws).1 = wm := by
  intro hs
  induction hs with
  | nil => intro id wm logs ws; rfl
  | cons h rest ih =>
    intro id wm logs ws
    rcases hq h wm with ⟨e, he⟩
    simp only [logSamplesGo, logSamplesDevice, he]
    exact ih (id + 1) wm logs _

/-- The run invariant: relative to the starting logs `init` and starting
watermark `w0`, every log has only gained sample lines whose timestamps are
strictly increasing, all in the half-open window `(w0, wm]`. -/
def LogsExtended (init : List LogFile) (w0 : Int) (wm : Int)
    (logs : List LogFile) : Prop :=
  w0 ≤ wm ∧ ∀ i : Nat, ∃ ps : List (Int × Int),
    List.Chain' (fun a b => a.1 < b.1) ps ∧
    (∀ p ∈ ps, w0 < p.1 ∧ p.1 ≤ wm) ∧
    (logs.getD i LogFile.fresh).content =
      (init.getD i LogFile.fresh).content ++ linesOf ps

theorem LogsExtended.refl (init : List LogFile) (w0 : Int) :
    LogsExtended init w0 w0 init :=
  ⟨le_refl w0, fun _ => ⟨[], List.chain'_nil, by simp, by simp [linesOf]⟩⟩

theorem LogsExtended.mono (init : List LogFile) (w0 wm wm2 : Int)
    (logs : List LogFile) (hle : wm ≤ wm2) (h : LogsExtended init w0 wm logs) :
    LogsExtended init w0 wm2 logs := by
  refine ⟨le_trans h.1 hle, fun i => ?_⟩
  rcases h.2 i with ⟨ps, hc, hb, hcont⟩
  exact ⟨ps, hc, fun p hp => ⟨(hb p hp).1, le_trans (hb p hp).2 hle⟩, hcont⟩

/-- One device step of `log_samples` preserves the run invariant: it
appends only lines with fresh, strictly increasing timestamps and advances
the shared watermark accordingly. -/
theorem logSamplesDevice_preserves (q : QueryFn) (hq : StrictSamples q)
    (field : Option String) (id h : Nat) (wm : Int) (logs init : List LogFile)
    (w0 : Int) (hinv : LogsExtended init w0 wm logs) :
    LogsExtended init w0 (logSamplesDevice q field id h wm logs).1
      (logSamplesDevice q field id h wm logs).2.1 := by
  cases hqr : q h wm with
  | error e => simpa [logSamplesDevice, hqr] using hinv
  | ok p =>
    rcases p with ⟨vt, ss⟩
    cases hl : ss.getLast? with
    | none => simpa [logSamplesDevice, hqr, hl] using hinv
    | some last =>
      obtain ⟨hnew, hchain⟩ := hq h wm vt ss hqr
      have hlast : last ∈ ss := list_mem_of_getLast? hl
      have hwmlt : wm < last.timeStamp := hnew last hlast
      have hle : ∀ s ∈ ss, s.timeStamp ≤ last.timeStamp :=
        chain_lt_le_getLast ss hchain last hl
      simp only [logSamplesDevice, hqr, hl]
      cases hfb : decodeOkB field with
      | false =>
        cases ss with
        | nil => simp at hl
        | cons s rest =>
          rw [writeSamplesAt_bad field hfb id s rest logs]
          exact LogsExtended.mono init w0 wm last.timeStamp logs
            (le_of_lt hwmlt) hinv
      | true =>
        cases hlid : logs[id]? with
        | none =>
          cases ss with
          | nil => simp at hl
          | cons s rest =>
            simp only [writeSamplesAt, hlid]
            exact LogsExtended.mono init w0 wm last.timeStamp logs
              (le_of_lt hwmlt) hinv
        | some l =>
          rw [writeSamplesAt_ok field hfb id ss logs l hlid]
          have hidlt : id < logs.length := (List.getElem?_eq_some.mp hlid).1
          refine ⟨le_trans hinv.1 (le_of_lt hwmlt), fun i => ?_⟩
          by_cases hi : i = id
          · subst hi
            rcases hinv.2 i with ⟨ps, hc, hb, hcont⟩
            have hl_eq : logs.getD i LogFile.fresh = l := by
              rw [List.getD_eq_getElem?_getD, hlid]; rfl
            refine ⟨ps ++ pairsOf field ss, ?_, ?_, ?_⟩
            · rw [List.chain'_append]
              refine ⟨hc, ?_, ?_⟩
              · rw [pairsOf, List.chain'_map]
                exact hchain
              · intro x hx y hy
                have hx' : x ∈ ps := list_mem_of_getLast? hx
                have hy' : y ∈ pairsOf field ss := List.mem_of_mem_head? hy
                rcases List.mem_map.mp hy' with ⟨s, hs, rfl⟩
                exact lt_of_le_of_lt (hb x hx').2 (hnew s hs)
            · intro pp hpp
              rcases List.mem_append.mp hpp with h1 | h2
              · exact ⟨(hb pp h1).1, le_trans (hb pp h1).2 (le_of_lt hwmlt)⟩
              · rcases List.mem_map.mp h2 with ⟨s, hs, rfl⟩
                exact ⟨lt_of_le_of_lt hinv.1 (hnew s hs), hle s hs⟩
            · have hsetD :
                  ((logs.set i
                      { l with content := l.content ++ linesOf (pairsOf field ss) }).getD
                    i LogFile.fresh) =
                    { l with content := l.content ++ linesOf (pairsOf field ss) } := by
                rw [List.getD_eq_getElem?_getD, List.getElem?_set_eq_of_lt _ hidlt]; rfl
              rw [hsetD]
              rw [hl_eq] at hcont
              simp only [hcont, linesOf, List.map_append, List.append_assoc]
          · rcases hinv.2 i with ⟨ps, hc, hb, hcont⟩
            have hne : id ≠ i := fun hh => hi hh.symm
            have hset :
                (logs.set id
                  { l with content := l.content ++ linesOf (pairsOf field ss) })[i]? =
                  logs[i]? := List.getElem?_set_ne hne
            refine ⟨ps, hc, ?_, ?_⟩
            · exact fun pp hpp => ⟨(hb pp hpp).1,
                le_trans (hb pp hpp).2 (le_of_lt hwmlt)⟩
            · rw [List.getD_eq_getElem?_getD, hset, ← List.getD_eq_getElem?_getD]
              exact hcont

/-- The device loop of `log_samples` preserves the run invariant. -/
theorem logSamplesGo_preserves (q : QueryFn) (hq : StrictSamples q)
    (field : Option String) :
    ∀ (hs : List Nat) (id : Nat) (wm : Int) (logs : List LogFile)
      (ws : List String) (init : List LogFile) (w0 : Int),
      LogsExtended init w0 wm logs →
      LogsExtended init w0 (logSamplesGo q field hs id wm logs ws).1
        (logSamplesGo q field hs id wm logs ws).2.1 := by
  intro hs
  induction hs with
  | nil => intro id wm logs ws init w0 hinv; exact hinv
  | cons h rest ih =>
    intro id wm logs ws init w0 hinv
    have hdev := logSamplesDevice_preserves q hq field id h wm logs init w0 hinv
    rcases hd : logSamplesDevice q field id h wm logs with ⟨wm2, logs2, w2, err⟩
    rw [hd] at hdev
    cases err with
    | none =>
      simp only [logSamplesGo, hd]
      exact ih (id + 1) wm2 logs2 (ws ++ w2) init w0 hdev
    | some e => simpa [logSamplesGo, hd] using hdev

theorem log_samples_proj (q : QueryFn) (r : NvmlReader) :
    (r.log_samples q).1.last_sample_time =
        (logSamplesGo q r.field r.handles 0 r.last_sample_time r.logs []).1 ∧
      (r.log_samples q).1.logs =
        (logSamplesGo q r.field r.handles 0 r.last_sample_time r.logs []).2.1 ∧
      (r.log_samples q).1.handles = r.handles ∧
      (r.log_samples q).1.field = r.field ∧
      (r.log_samples q).2.1 =
        (logSamplesGo q r.field r.handles 0 r.last_sample_time r.logs []).2.2.1 ∧
      (r.log_samples q).2.2 =
        (logSamplesGo q r.field r.handles 0 r.last_sample_time r.logs []).2.2.2 := by
  unfold NvmlReader.log_samples
  rcases logSamplesGo q r.field r.handles 0 r.last_sample_time r.logs [] with
    ⟨wm, lg, ws, err⟩
  exact ⟨rfl, rfl, rfl, rfl, rfl, rfl⟩

/-- A sequence of poll cycles, each driven by its own query behavior. -/
def runCycles : List QueryFn → NvmlReader → NvmlReader
  | [], r => r
  | q :: rest, r => runCycles rest (r.log_samples q).1

/-- A whole run of poll cycles satisfying the capability contract preserves
the invariant. -/
theorem runCycles_preserves :
    ∀ (cycles : List QueryFn) (r : NvmlReader) (init : List LogFile) (w0 : Int),
      (∀ q ∈ cycles, StrictSamples q) →
      LogsExtended init w0 r.last_sample_time r.logs →
      LogsExtended init w0 (runCycles cycles r).last_sample_time
        (runCycles cycles r).logs := by
  intro cycles
  induction cycles with
  | nil => intro r init w0 _ hinv; exact hinv
  | cons q rest ih =>
    intro r init w0 hc hinv
    have hq : StrictSamples q := hc q (List.mem_cons_self q rest)
    have hstep := logSamplesGo_preserves q hq r.field r.handles 0
      r.last_sample_time r.logs [] init w0 hinv
    rcases log_samples_proj q r with ⟨hwm, hlogs, _, _⟩
    have hinv2 : LogsExtended init w0 (r.log_samples q).1.last_sample_time
        (r.log_samples q).1.logs := by
      rw [hwm, hlogs]; exact hstep
    exact ih (r.log_samples q).1 init w0
      (fun q2 hq2 => hc q2 (List.mem_cons_of_mem q hq2)) hinv2

/-! ## Construction lemmas -/

theorem acquireHandles_length (get : Nat → Except String Nat) :
    ∀ (n start : Nat) (hs : List Nat),
      acquireHandles get start n = .ok hs → hs.length = n := by
  intro n
  induction n with
  | zero =>
    intro start hs h
    simp only [acquireHandles] at h
    cases h
    rfl
  | succ m ih =>
    intro start hs h
    simp only [acquireHandles] at h
    cases hg : get start with
    | error e => rw [hg] at h; cases h
    | ok hd =>
      rw [hg] at h
      cases hr : acquireHandles get (start + 1) m with
      | error e => rw [hr] at h; cases h
      | ok tl =>
        rw [hr] at h
        cases h
        simp [ih (start + 1) tl hr]

theorem acquireHandles_ok (get : Nat → Except String Nat) :
    ∀ (n start : Nat), (∀ i, i < n → ∃ h, get (start + i) = .ok h) →
      ∃ hs, acquireHandles get start n = .ok hs ∧ hs.length = n := by
  intro n
  induction n with
  | zero => intro start _; exact ⟨[], rfl, rfl⟩
  | succ m ih =>
    intro start hok
    rcases hok 0 (Nat.succ_pos m) with ⟨h0, hh0⟩
    rw [Nat.add_zero] at hh0
    rcases ih (start + 1) (fun i hi => by
      rcases hok (i + 1) (Nat.succ_lt_succ hi) with ⟨h, hh⟩
      exact ⟨h, by rw [show start + 1 + i = start + (i + 1) by omega]; exact hh⟩) with
      ⟨hs, hacq, hlen⟩
    exact ⟨h0 :: hs, by simp [acquireHandles, hh0, hacq], by simp [hlen]⟩

theorem acquireHandles_fail (get : Nat → Except String Nat) (e : String) :
    ∀ (k n start : Nat), (∀ i, i < k → ∃ h, get (start + i) = .ok h) →
      get (start + k) = .error e → k < n →
      acquireHandles get start n = .error e := by
  intro k
  induction k with
  | zero =>
    intro n start _ herr hn
    cases n with
    | zero => omega
    | succ m =>
      rw [Nat.add_zero] at herr
      simp [acquireHandles, herr]
  | succ j ih =>
    intro n start hok herr hn
    cases n with
    | zero => omega
    | succ m =>
      rcases hok 0 (Nat.succ_pos j) with ⟨h0, hh0⟩
      rw [Nat.add_zero] at hh0
      have hrec : acquireHandles get (start + 1) m = .error e := by
        refine ih m (start + 1) (fun i hi => ?_) ?_ (by omega)
        · rcases hok (i + 1) (Nat.succ_lt_succ hi) with ⟨h, hh⟩
          exact ⟨h, by rw [show start + 1 + i = start + (i + 1) by omega]; exact hh⟩
        · rw [show start + 1 + j = start + (j + 1) by omega]; exact herr
      simp [acquireHandles, hh0, hrec]

theorem openLogs_ok_all (op : String → Except String Unit) (base : String)
    (hop : ∀ s, op s = .ok ()) :
    ∀ (n idx : Nat), openLogs op base idx n = .ok (List.replicate n LogFile.fresh) := by
  intro n
  induction n with
  | zero => intro idx; rfl
  | succ m ih =>
    intro idx
    simp [openLogs, hop (logName base idx), ih (idx + 1), List.replicate_succ]

theorem openLogs_fail (op : String → Except String Unit) (base : String) (e : String) :
    ∀ (k n idx : Nat), (∀ i, i < k → op (logName base (idx + i)) = .ok ()) →
      op (logName base (idx + k)) = .error e → k < n →
      openLogs op base idx n = .error (e, k) := by
  intro k
  induction k with
  | zero =>
    intro n idx _ herr hn
    cases n with
    | zero => omega
    | succ m =>
      rw [Nat.add_zero] at herr
      simp [openLogs, herr]
  | succ j ih =>
    intro n idx hok herr hn
    cases n with
    | zero => omega
    | succ m =>
      have h0 : op (logName base idx) = .ok () := by
        have := hok 0 (Nat.succ_pos j)
        rwa [Nat.add_zero] at this
      have hrec : openLogs op base (idx + 1) m = .error (e, j) := by
        refine ih m (idx + 1) (fun i hi => ?_) ?_ (by omega)
        · have := hok (i + 1) (Nat.succ_lt_succ hi)
          rwa [show idx + (i + 1) = idx + 1 + i by omega] at this
        · rwa [show idx + (j + 1) = idx + 1 + j by omega] at herr
      simp [openLogs, h0, hrec]

/-- An unsupported sampling type fails construction immediately, before any
resource is acquired. -/
theorem init_unsupported (env : InitEnv) (bn : String) (st : Nat)
    (hst : st ∉ SUPPORTED_SAMPLING_TYPES) :
    NvmlReader.init env bn st =
      .error (.valueError "Illegal or unsupported sampling type", 0) := by
  simp [NvmlReader.init, hst]

/-- When every external step succeeds, construction returns an instance whose
watermark is 0, whose logs are fresh, and whose decode field comes from the
probed value type. -/
theorem init_ok_all (env : InitEnv) (bn : String) (st : Nat)
    (hst : st ∈ SUPPORTED_SAMPLING_TYPES)
    (hh : ∀ i, i < env.deviceCount → ∃ h, env.getHandle i = .ok h)
    (hop : ∀ s, env.openLog s = .ok ())
    (hdc : 0 < env.deviceCount)
    (vt : Nat) (ps0 : List Sample)
    (hp : ∀ h, env.probe h = .ok (vt, ps0)) :
    ∃ r, NvmlReader.init env bn st = .ok r ∧
      r.field = SAMPLE_VALUE_TYPE_TO_FIELD vt ∧
      r.last_sample_time = 0 ∧
      r.logs = List.replicate env.deviceCount LogFile.fresh ∧
      r.metric = SAMPLING_TYPE_TO_HEADER st ∧
      r.device_count = env.deviceCount ∧
      r.handles.length = env.deviceCount := by
  rcases acquireHandles_ok env.getHandle env.deviceCount 0
    (fun i hi => by simpa using hh i hi) with ⟨hs, hacq, hlen⟩
  have h0lt : 0 < hs.length := by omega
  have hh0 : hs[0]? = some (hs.get ⟨0, h0lt⟩) := by
    rw [List.getElem?_eq_getElem h0lt]; rfl
  refine ⟨{ sampling_type := st, device_count := env.deviceCount, handles := hs,
            logs := List.replicate env.deviceCount LogFile.fresh,
            last_sample_time := 0, field := SAMPLE_VALUE_TYPE_TO_FIELD vt,
            metric := SAMPLING_TYPE_TO_HEADER st },
          ?_, rfl, rfl, rfl, rfl, rfl, hlen⟩
  simp [NvmlReader.init, hst, hacq, hlen, openLogs_ok_all env.openLog bn hop,
    hh0, hp]

/-- If a handle acquisition fails, construction aborts with that NVML
error (not with the handle-count RuntimeError), before any log is opened. -/
theorem init_handlefail (env : InitEnv) (bn : String) (st : Nat) (e : String)
    (k : Nat) (hst : st ∈ SUPPORTED_SAMPLING_TYPES)
    (hok : ∀ i, i < k → ∃ h, env.getHandle i = .ok h)
    (herr : env.getHandle k = .error e)
    (hk : k < env.deviceCount) :
    NvmlReader.init env bn st = .error (.nvmlError e, 0) := by
  have hacq : acquireHandles env.getHandle 0 env.deviceCount = .error e :=
    acquireHandles_fail env.getHandle e k env.deviceCount 0
      (fun i hi => by simpa using hok i hi) (by simpa using herr) hk
  simp [NvmlReader.init, if_pos hst, hacq]

/-- If the k-th log file cannot be opened, construction aborts with that
error, leaving the k logs already opened unclosed. -/
theorem init_openfail (env : InitEnv) (bn : String) (st : Nat) (e : String)
    (k : Nat) (hst : st ∈ SUPPORTED_SAMPLING_TYPES)
    (hh : ∀ i, i < env.deviceCount → ∃ h, env.getHandle i = .ok h)
    (hok : ∀ i, i < k → env.openLog (logName bn i) = .ok ())
    (herr : env.openLog (logName bn k) = .error e)
    (hk : k < env.deviceCount) :
    NvmlReader.init env bn st = .error (.osError e, k) := by
  rcases acquireHandles_ok env.getHandle env.deviceCount 0
    (fun i hi => by simpa using hh i hi) with ⟨hs, hacq, hlen⟩
  have hopen : openLogs env.openLog bn 0 hs.length = .error (e, k) := by
    refine openLogs_fail env.openLog bn e k hs.length 0
      (fun i hi => by simpa using hok i hi) (by simpa using herr) (by omega)
  simp only [NvmlReader.init, if_pos hst, hacq]
  rw [if_neg (by omega), hopen]

/-- If the probe query fails, construction aborts with that NVML error,
leaving all `deviceCount` opened logs unclosed. -/
theorem init_probefail (env : InitEnv) (bn : String) (st : Nat) (e : String)
    (hst : st ∈ SUPPORTED_SAMPLING_TYPES)
    (hh : ∀ i, i < env.deviceCount → ∃ h, env.getHandle i = .ok h)
    (hop : ∀ s, env.openLog s = .ok ())
    (hdc : 0 < env.deviceCount)
    (hp : ∀ h, env.probe h = .error e) :
    NvmlReader.init env bn st = .error (.nvmlError e, env.deviceCount) := by
  rcases acquireHandles_ok env.getHandle env.deviceCount 0
    (fun i hi => by simpa using hh i hi) with ⟨hs, hacq, hlen⟩
  have h0lt : 0 < hs.length := by omega
  have hh0 : hs[0]? = some (hs.get ⟨0, h0lt⟩) := by
    rw [List.getElem?_eq_getElem h0lt]; rfl
  simp [NvmlReader.init, hst, hacq, hlen, openLogs_ok_all env.openLog bn hop,
    hh0, hp]

/-- The handle-count RuntimeError branch of `__init__` is dead code: the
acquisition loop either aborts or produces exactly `device_count` handles. -/
theorem init_never_runtimeError (env : InitEnv) (bn : String) (st : Nat)
    (m : String) (n : Nat) :
    NvmlReader.init env bn st ≠ .error (.runtimeError m, n) := by
  intro hcontra
  unfold NvmlReader.init at hcontra
  split at hcontra
  · split at hcontra
    · simp at hcontra
    · rename_i hs hacq
      split at hcontra
      · rename_i hne
        exact hne (acquireHandles_length env.getHandle env.deviceCount 0 hs hacq)
      · split at hcontra
        · simp at hcontra
        · split at hcontra
          · simp at hcontra
          · split at hcontra
            · simp at hcontra
            · simp at hcontra
  · simp at hcontra

/-- Any successfully constructed reader starts with watermark 0. -/
theorem init_ok_wm_zero (env : InitEnv) (bn : String) (st : Nat)
    (r : NvmlReader) (h : NvmlReader.init env bn st = .ok r) :
    r.last_sample_time = 0 := by
  unfold NvmlReader.init at h
  split at h
  · split at h
    · cases h
    · split at h
      · cases h
      · split at h
        · cases h
        · split at h
          · cases h
          · split at h
            · cases h
            · rw [Except.ok.injEq] at h
              rw [← h]
  · cases h

/-! ## Further concrete scenarios -/

/-- Poll cycle 2 used to exhibit the shared watermark: device 0 only
answers a query issued exactly from watermark 300; device 1 only answers a
query issued from watermark 0 (which the per-device reading of the spec
would predict), and otherwise reports a telltale error. -/
def qCycle2 : QueryFn := fun h t =>
  if h = 0 then
    if t = 300 then .ok (0, [mkSample 400 5300]) else .error "unexpected since"
  else
    if t = 0 then .ok (0, [mkSample 250 5250]) else .error "queried with nonzero since"

/-- Device 0 succeeds with an empty sample list; device 1 would succeed
with one sample. -/
def qEmpty : QueryFn := fun h t =>
  if h = 0 then .ok (0, []) else
    if t < 50 then .ok (0, [mkSample 50 1]) else .error "no newer samples"

/-- Both devices succeed: device 0's newest timestamp is 100, device 1's
newest timestamp is 200. -/
def qBothOk : QueryFn := fun h t =>
  if h = 0 then
    if t < 100 then .ok (0, [mkSample 100 1]) else .error "no newer samples"
  else
    if t < 200 then .ok (0, [mkSample 150 2, mkSample 200 3]) else .error "no newer samples"

/-- Construction environment whose probe query always fails. -/
def envProbeFail : InitEnv where
  deviceCount := 2
  getHandle := fun i => .ok i
  openLog := fun _ => .ok ()
  probe := fun _ => .error "probe boom"

/-- Construction environment whose handle acquisition always fails. -/
def envHandleFail : InitEnv where
  deviceCount := 1
  getHandle := fun _ => .error "handle boom"
  openLog := fun _ => .ok ()
  probe := fun _ => .ok (0, [mkSample 1 0])

/-- Construction environment whose probe reports the unknown value-type
tag 7. -/
def envVT7 : InitEnv where
  deviceCount := 1
  getHandle := fun i => .ok i
  openLog := fun _ => .ok ()
  probe := fun _ => .ok (7, [mkSample 1 0])

/-- The one-device reader produced by `envVT7`: decode field is `None`. -/
def readerVT7 : NvmlReader where
  sampling_type := NVML_TOTAL_POWER_SAMPLES
  device_count := 1
  handles := [0]
  logs := [LogFile.fresh]
  last_sample_time := 0
  field := none
  metric := some "Power"

/-- `qCycle1` obeys the capability contract: successful responses are
strictly newer than the requested since-timestamp and strictly increasing. -/
theorem strictSamples_qCycle1 : StrictSamples qCycle1 := by
  intro h t vt ss hq
  unfold qCycle1 at hq
  split_ifs at hq with h1 h2
  rw [Except.ok.injEq, Prod.mk.injEq] at hq
  obtain ⟨-, rfl⟩ := hq
  refine ⟨?_, ?_⟩
  · intro s hs
    simp only [List.mem_cons, List.not_mem_nil, or_false] at hs
    rcases hs with rfl | rfl | rfl <;> simp only [mkSample] <;> omega
  · simp only [List.chain'_cons, List.chain'_singleton, mkSample, and_true]
    omega

/-! ## Claims -/

/-- Claim C1, counterexample.  The spec claims a per-device watermark:
after cycle 1 (device 0 succeeds with samples up to 300, device 1's query
fails) device 1's watermark should still be 0.  In the code the watermark
is a single field shared by all devices: after cycle 1 it equals 300, and
device 1's cycle-2 query is issued with a nonzero since-timestamp, which
the instrumented `qCycle2` detects. -/
theorem C1_watermark_counterexample :
    (readerE2E.log_samples qCycle1).1.last_sample_time = 300 ∧
    ((readerE2E.log_samples qCycle1).1.last_sample_time = 0 → False) ∧
    ((readerE2E.log_samples qCycle1).1.log_samples qCycle2).2.1 =
      ["WARNING nvml error during sampling: queried with nonzero since"] := by
  refine ⟨by decide, by decide, by decide⟩

/-- Claim C1, amended: the watermark is a single value shared by all
devices.  It starts at 0 on construction, never decreases under the
newer-than-since capability contract, stays unchanged when every query
fails, and after cycle 1 of the end-to-end scenario it equals 300 (for
every device, including failed device 1). -/
theorem C1_watermark_shared (env : InitEnv) (bn : String) (st : Nat)
    (r0 r : NvmlReader) (q qf : QueryFn)
    (hinit : NvmlReader.init env bn st = .ok r0)
    (hq : QueryNewer q)
    (hqf : ∀ h t, ∃ e, qf h t = .error e) :
    r0.last_sample_time = 0 ∧
    r.last_sample_time ≤ (r.log_samples q).1.last_sample_time ∧
    (r.log_samples qf).1.last_sample_time = r.last_sample_time ∧
    (readerE2E.log_samples qCycle1).1.last_sample_time = 300 := by
  refine ⟨init_ok_wm_zero env bn st r0 hinit, ?_, ?_, by decide⟩
  · rcases log_samples_proj q r with ⟨hwm, _, _, _⟩
    rw [hwm]
    exact logSamplesGo_wm_mono q hq r.field r.handles 0 r.last_sample_time r.logs []
  · rcases log_samples_proj qf r with ⟨hwm, _, _, _⟩
    rw [hwm]
    exact logSamplesGo_wm_allfail qf hqf r.field r.handles 0 r.last_sample_time r.logs []

/-- Claim C1, witness: the amended theorem applied to the end-to-end
scenario (successful construction, contract-abiding cycle 1, and an
always-failing cycle). -/
theorem C1_watermark_shared_witness :
    readerE2E.last_sample_time = 0 ∧
    readerE2E.last_sample_time ≤ (readerE2E.log_samples qCycle1).1.last_sample_time ∧
    ((readerE2E.log_samples (fun _ _ => .error "down")).1.last_sample_time =
      readerE2E.last_sample_time) ∧
    (readerE2E.log_samples qCycle1).1.last_sample_time = 300 := by
  have h := C1_watermark_shared envE2E "log" NVML_TOTAL_POWER_SAMPLES
    readerE2E readerE2E qCycle1 (fun _ _ => .error "down")
    rfl strictSamples_qCycle1.queryNewer
    (fun h t => ⟨"down", rfl⟩)
  exact ⟨h.1, h.2.1, h.2.2.1, h.2.2.2⟩

/-- Claim C2, counterexample.  In cycle 1 of the end-to-end scenario,
device 1 (index 1) fails; the warning actually printed is
`"WARNING nvml error during sampling: device is lost"`, which contains the
underlying error but not the failing device's index: the digit 1 does not
occur in it anywhere.  So the warning does not name the device index. -/
theorem C2_warning_counterexample :
    (readerE2E.log_samples qCycle1).2.1 =
      ["WARNING nvml error during sampling: device is lost"] ∧
    containsSubstr "WARNING nvml error during sampling: device is lost" "1" = false := by
  refine ⟨by decide, by decide⟩

/-- Claim C2, amended: a per-device query failure is caught, emits a
non-fatal warning naming the underlying error (but not the device index),
leaves the shared watermark and every log unchanged by that device, and
polling continues with the next device; the failing device's own log is
never written during the whole call. -/
theorem C2_failure_isolation :
    (∀ (q : QueryFn) (field : Option String) (h : Nat) (rest : List Nat)
       (id : Nat) (wm : Int) (logs : List LogFile) (ws : List String) (e : String),
       q h wm = .error e →
       logSamplesGo q field (h :: rest) id wm logs ws =
         logSamplesGo q field rest (id + 1) wm logs
           (ws ++ ["WARNING nvml error during sampling: " ++ e])) ∧
    (∀ (q : QueryFn) (r : NvmlReader) (i h : Nat),
       r.handles[i]? = some h → (∀ t, ∃ e, q h t = .error e) →
       (r.log_samples q).1.logs[i]? = r.logs[i]?) ∧
    ((readerE2E.log_samples qCycle1).2.2 = none ∧
     (readerE2E.log_samples qCycle1).1.logs[1]? = some LogFile.fresh) := by
  refine ⟨?_, ?_, by decide, by decide⟩
  · intro q field h rest id wm logs ws e hq
    simp [logSamplesGo, logSamplesDevice, hq]
  · intro q r i h hh hfail
    rcases log_samples_proj q r with ⟨_, hlogs, _, _⟩
    rw [hlogs]
    have := logSamplesGo_error_device_unchanged q r.field r.handles 0
      r.last_sample_time r.logs [] i h hh hfail
    simpa using this

/-- Claim C2, witness: the isolation theorem applied to the end-to-end
scenario, showing device 1's log survives the whole call untouched. -/
theorem C2_failure_isolation_witness :
    (readerE2E.log_samples qCycle1).1.logs[1]? = readerE2E.logs[1]? :=
  C2_failure_isolation.2.1 qCycle1 readerE2E 1 1 rfl
    (fun t => ⟨"device is lost", by simp [qCycle1]⟩)

/-- Claim C3, counterexample.  When device 0's query succeeds with an
empty sample list, `samples[-1]` raises an uncaught IndexError: the call
fails, and device 1 — whose query would have succeeded with one sample —
is never polled (its log stays empty).  This refutes "does not fail;
polling proceeds normally to the next device". -/
theorem C3_empty_counterexample :
    (readerE2E.log_samples qEmpty).2.2 = some PyError.indexError ∧
    (readerE2E.log_samples qEmpty).1.logs[1]? = some LogFile.fresh := by
  refine ⟨by decide, by decide⟩

/-- Claim C3, amended: on a successful query with an empty sample list,
nothing is written and the watermark is unchanged, but `log_samples`
raises an uncaught IndexError (from `samples[-1]`), aborting the poll
cycle so the remaining devices are not polled. -/
theorem C3_empty_aborts :
    (∀ (q : QueryFn) (field : Option String) (h : Nat) (rest : List Nat)
       (id : Nat) (wm : Int) (logs : List LogFile) (ws : List String) (vt : Nat),
       q h wm = .ok (vt, []) →
       logSamplesGo q field (h :: rest) id wm logs ws =
         (wm, logs, ws, some .indexError)) ∧
    ((readerE2E.log_samples qEmpty).1.last_sample_time =
        readerE2E.last_sample_time ∧
     (readerE2E.log_samples qEmpty).1.logs = readerE2E.logs ∧
     (readerE2E.log_samples qEmpty).2.1 = [] ∧
     (readerE2E.log_samples qEmpty).2.2 = some PyError.indexError) := by
  refine ⟨?_, by decide, by decide, by decide, by decide⟩
  intro q field h rest id wm logs ws vt hq
  simp [logSamplesGo, logSamplesDevice, hq]

/-- Claim C3, witness: the abort equation at a concrete empty-success
query. -/
theorem C3_empty_aborts_witness :
    logSamplesGo qEmpty (some "dVal") [0, 1] 0 0 [LogFile.fresh, LogFile.fresh] [] =
      (0, [LogFile.fresh, LogFile.fresh], [], some PyError.indexError) :=
  C3_empty_aborts.1 qEmpty (some "dVal") 0 [1] 0 0
    [LogFile.fresh, LogFile.fresh] [] 0 rfl

/-- Claim C4: over any sequence of `log_samples` calls against a
capability that returns only samples strictly newer than the requested
since-timestamp, strictly increasing within each response, each device's
log gains exactly a sequence of sample lines whose timestamps are strictly
increasing across the whole run (no duplicates, no regressions), all newer
than the starting watermark. -/
theorem C4_log_timestamps_increasing (cycles : List QueryFn)
    (r : NvmlReader) (i : Nat) (hc : ∀ q ∈ cycles, StrictSamples q) :
    ∃ ps : List (Int × Int),
      List.Chain' (fun a b => a.1 < b.1) ps ∧
      (∀ p ∈ ps, r.last_sample_time < p.1) ∧
      ((runCycles cycles r).logs.getD i LogFile.fresh).content =
        (r.logs.getD i LogFile.fresh).content ++ linesOf ps := by
  have hinv := runCycles_preserves cycles r r.logs r.last_sample_time hc
    (LogsExtended.refl r.logs r.last_sample_time)
  rcases hinv.2 i with ⟨ps, hchain, hb, hcont⟩
  exact ⟨ps, hchain, fun p hp => (hb p hp).1, hcont⟩

/-- Claim C4, witness: the end-to-end scenario's cycle 1 on device 0. -/
theorem C4_log_timestamps_increasing_witness :
    ∃ ps : List (Int × Int),
      List.Chain' (fun a b => a.1 < b.1) ps ∧
      (∀ p ∈ ps, readerE2E.last_sample_time < p.1) ∧
      ((runCycles [qCycle1] readerE2E).logs.getD 0 LogFile.fresh).content =
        (readerE2E.logs.getD 0 LogFile.fresh).content ++ linesOf ps :=
  C4_log_timestamps_increasing [qCycle1] readerE2E 0
    (fun _ hq => (List.mem_singleton.mp hq) ▸ strictSamples_qCycle1)

/-- Claim C5, counterexample.  With two devices and a failing probe query,
construction fails — but the two log files opened before the probe are
never closed, contradicting "no log streams are left open". -/
theorem C5_leak_counterexample :
    NvmlReader.init envProbeFail "log" NVML_TOTAL_POWER_SAMPLES =
      .error (.nvmlError "probe boom", 2) ∧
    (2 : Nat) ≠ 0 := by
  refine ⟨rfl, by decide⟩

/-- Claim C5, amended: every construction failure returns no instance, but
construction is not all-or-nothing with respect to opened resources: an
unsupported metric kind fails before anything is opened (0 logs open); a
failure opening the k-th log file leaves the k earlier logs open; a probe
failure leaves all `deviceCount` logs open. -/
theorem C5_construction_failure_modes :
    (∀ (env : InitEnv) (bn : String) (st : Nat),
       st ∉ SUPPORTED_SAMPLING_TYPES →
       NvmlReader.init env bn st =
         .error (.valueError "Illegal or unsupported sampling type", 0)) ∧
    (∀ (env : InitEnv) (bn : String) (st : Nat) (e : String) (k : Nat),
       st ∈ SUPPORTED_SAMPLING_TYPES →
       (∀ i, i < env.deviceCount → ∃ h, env.getHandle i = .ok h) →
       (∀ i, i < k → env.openLog (logName bn i) = .ok ()) →
       env.openLog (logName bn k) = .error e →
       k < env.deviceCount →
       NvmlReader.init env bn st = .error (.osError e, k)) ∧
    (∀ (env : InitEnv) (bn : String) (st : Nat) (e : String),
       st ∈ SUPPORTED_SAMPLING_TYPES →
       (∀ i, i < env.deviceCount → ∃ h, env.getHandle i = .ok h) →
       (∀ s, env.openLog s = .ok ()) →
       0 < env.deviceCount →
       (∀ h, env.probe h = .error e) →
       NvmlReader.init env bn st = .error (.nvmlError e, env.deviceCount)) := by
  refine ⟨?_, ?_, ?_⟩
  · intro env bn st hst
    exact init_unsupported env bn st hst
  · intro env bn st e k hst hh hok herr hk
    exact init_openfail env bn st e k hst hh hok herr hk
  · intro env bn st e hst hh hop hdc hp
    exact init_probefail env bn st e hst hh hop hdc hp

/-- Claim C5, witness: the probe-failure mode at the concrete environment
with two devices. -/
theorem C5_construction_failure_modes_witness :
    NvmlReader.init envProbeFail "base" NVML_TOTAL_POWER_SAMPLES =
      .error (.nvmlError "probe boom", envProbeFail.deviceCount) :=
  C5_construction_failure_modes.2.2 envProbeFail "base" NVML_TOTAL_POWER_SAMPLES
    "probe boom" (by decide) (fun i _ => ⟨i, rfl⟩) (fun _ => rfl) (by decide)
    (fun _ => rfl)

/-- Claim C6, counterexample.  `__exit__` closes the logs but never calls
`nvmlShutdown`: the NVML library state is whatever it was before, so after
teardown the process-wide capability handle is still held. -/
theorem C6_no_release_counterexample :
    (readerE2E.exitCM true).2 = true ∧
    ((readerE2E.exitCM true).2 = false → False) := by
  refine ⟨rfl, by decide⟩

/-- Claim C6, amended: the context-manager exit closes (and thereby
flushes) every LogStream, leaving their contents intact, but does not
release the external capability's process-wide handle — the NVML state is
returned unchanged. -/
theorem C6_exit_closes_logs_only (r : NvmlReader) (b : Bool) :
    (r.exitCM b).1.logs.length = r.logs.length ∧
    (∀ i : Nat, (r.exitCM b).1.logs[i]? = (r.logs[i]?).map LogFile.close) ∧
    (∀ l, l ∈ (r.exitCM b).1.logs → l.closed = true) ∧
    (∀ i : Nat, ((r.exitCM b).1.logs.getD i LogFile.fresh).content =
      ((r.logs.getD i LogFile.fresh)).content) ∧
    (r.exitCM b).2 = b := by
  refine ⟨by simp [NvmlReader.exitCM], ?_, ?_, ?_, rfl⟩
  · intro i
    simp [NvmlReader.exitCM]
  · intro l hl
    simp only [NvmlReader.exitCM, List.mem_map] at hl
    rcases hl with ⟨x, _, rfl⟩
    rfl
  · intro i
    simp only [NvmlReader.exitCM, List.getD_eq_getElem?_getD, List.getElem?_map]
    cases r.logs[i]? <;> rfl

/-- Claim C7, counterexample.  Both devices succeed: device 0's newest
timestamp is 100, device 1's newest is 200.  The spec's per-device reading
says device 0's watermark is set to 100; the code's single shared
watermark ends at 200, and no state holding 100 remains. -/
theorem C7_shared_counterexample :
    (readerE2E.set_last_seen qBothOk).1.last_sample_time = 200 ∧
    ((readerE2E.set_last_seen qBothOk).1.last_sample_time = 100 → False) := by
  refine ⟨by decide, by decide⟩

/-- Claim C7, amended: `set_last_seen` appends nothing to any log; each
device whose query succeeds with at least one sample sets the shared
watermark to its last (newest) returned timestamp, the next device being
queried from there; a query failure emits a warning naming the error and
the loop continues with the next device, watermark unchanged. -/
theorem C7_advance_watermark_only :
    (∀ (q : QueryFn) (r : NvmlReader), (r.set_last_seen q).1.logs = r.logs) ∧
    (∀ (q : QueryFn) (h : Nat) (rest : List Nat) (wm : Int) (ws : List String)
       (vt : Nat) (ss : List Sample) (last : Sample),
       q h wm = .ok (vt, ss) → ss.getLast? = some last →
       setLastSeenGo q (h :: rest) wm ws =
         setLastSeenGo q rest last.timeStamp ws) ∧
    (∀ (q : QueryFn) (h : Nat) (rest : List Nat) (wm : Int) (ws : List String)
       (e : String), q h wm = .error e →
       setLastSeenGo q (h :: rest) wm ws =
         setLastSeenGo q rest wm (ws ++ ["WARNING nvml error: " ++ e])) ∧
    ((readerE2E.set_last_seen qBothOk).1.last_sample_time = 200 ∧
     (readerE2E.set_last_seen qBothOk).1.logs = readerE2E.logs) := by
  refine ⟨?_, ?_, ?_, by decide, by decide⟩
  · intro q r
    unfold NvmlReader.set_last_seen
    rcases setLastSeenGo q r.handles r.last_sample_time [] with ⟨wm, ws, err⟩
    rfl
  · intro q h rest wm ws vt ss last hq hl
    simp [setLastSeenGo, hq, hl]
  · intro q h rest wm ws e hq
    simp [setLastSeenGo, hq]

/-- Claim C7, witness: one successful device advances the shared watermark
to its newest timestamp. -/
theorem C7_advance_watermark_only_witness :
    setLastSeenGo qBothOk [0] 0 [] =
      setLastSeenGo qBothOk [] (mkSample 100 1).timeStamp [] :=
  C7_advance_watermark_only.2.1 qBothOk 0 [] 0 [] 0 [mkSample 100 1]
    (mkSample 100 1) rfl rfl

/-- Claim C8: each `log_header` call appends exactly the line
`"Time,<MetricLabel>\n"` to every device's log; n calls append n such
lines to each log; the watermark is untouched; and the label bound to the
power metric is "Power". -/
theorem C8_log_header_appends (r : NvmlReader) (m : String) (n : Nat)
    (hm : r.metric = some m) :
    SAMPLING_TYPE_TO_HEADER NVML_TOTAL_POWER_SAMPLES = some "Power" ∧
    (NvmlReader.log_header^[n] r).last_sample_time = r.last_sample_time ∧
    ∀ i : Nat, (NvmlReader.log_header^[n] r).logs[i]? =
      (r.logs[i]?).map (fun l =>
        { l with content := l.content ++ List.replicate n ("Time," ++ m ++ "\n") }) := by
  refine ⟨rfl, ?_, ?_⟩
  · induction n generalizing r with
    | zero => rfl
    | succ k ih =>
      rw [Function.iterate_succ_apply]
      exact ih (r.log_header) hm
  · induction n generalizing r with
    | zero =>
      intro i
      simp only [Function.iterate_zero, id_eq, List.replicate_zero, List.append_nil]
      cases h : r.logs[i]? <;> rfl
    | succ k ih =>
      intro i
      rw [Function.iterate_succ_apply]
      have hm2 : (r.log_header).metric = some m := hm
      rw [ih (r.log_header) hm2 i]
      have hlogs : (r.log_header).logs =
          r.logs.map (fun l => l.write ("Time," ++ metricStr r.metric ++ "\n")) := rfl
      rw [hlogs, List.getElem?_map]
      cases h : r.logs[i]? with
      | none => rfl
      | some l =>
        simp [LogFile.write, metricStr, hm, List.replicate_succ]

/-- Claim C8, witness: two header calls on the end-to-end reader leave two
`"Time,Power\n"` lines in device 0's log. -/
theorem C8_log_header_appends_witness :
    (NvmlReader.log_header^[2] readerE2E).logs[0]? =
      some { content := ["Time,Power\n", "Time,Power\n"], closed := false } := by
  have h := (C8_log_header_appends readerE2E "Power" 2 rfl).2.2 0
  simpa [LogFile.fresh] using h

/-- Claim C9, counterexample.  With one device whose handle acquisition
fails with an NVML error, construction aborts with that NVML error — not
with the `RuntimeError("Failed to get all device handles")` that the spec
calls `EnumerationFailure`. -/
theorem C9_enumeration_counterexample :
    NvmlReader.init envHandleFail "log" NVML_TOTAL_POWER_SAMPLES =
      .error (.nvmlError "handle boom", 0) ∧
    (PyError.nvmlError "handle boom" =
      PyError.runtimeError "Failed to get all device handles" → False) := by
  refine ⟨rfl, by decide⟩

/-- Claim C9, amended: a failed handle acquisition aborts construction
with that acquisition's own NVML error, before any log is opened; the
handle-count check (`EnumerationFailure`) is dead code — no run of
construction can ever fail with it, because the acquisition loop either
aborts on the first failure or yields exactly `device_count` handles. -/
theorem C9_enumeration_dead_check :
    (∀ (env : InitEnv) (bn : String) (st : Nat) (m : String) (n : Nat),
       NvmlReader.init env bn st ≠ .error (.runtimeError m, n)) ∧
    (∀ (env : InitEnv) (bn : String) (st : Nat) (e : String) (k : Nat),
       st ∈ SUPPORTED_SAMPLING_TYPES →
       (∀ i, i < k → ∃ h, env.getHandle i = .ok h) →
       env.getHandle k = .error e → k < env.deviceCount →
       NvmlReader.init env bn st = .error (.nvmlError e, 0)) := by
  refine ⟨?_, ?_⟩
  · intro env bn st m n
    exact init_never_runtimeError env bn st m n
  · intro env bn st e k hst hok herr hk
    exact init_handlefail env bn st e k hst hok herr hk

/-- Claim C9, witness: the dead-check and first-failure clauses at the
concrete failing environment. -/
theorem C9_enumeration_dead_check_witness :
    NvmlReader.init envHandleFail "base" NVML_TOTAL_POWER_SAMPLES =
      .error (.nvmlError "handle boom", 0) ∧
    NvmlReader.init envHandleFail "base" NVML_TOTAL_POWER_SAMPLES ≠
      .error (.runtimeError "Failed to get all device handles", 0) :=
  ⟨C9_enumeration_dead_check.2 envHandleFail "base" NVML_TOTAL_POWER_SAMPLES
    "handle boom" 0 (by decide) (fun i hi => absurd hi (by omega)) rfl (by decide),
   C9_enumeration_dead_check.1 envHandleFail "base" NVML_TOTAL_POWER_SAMPLES
    "Failed to get all device handles" 0⟩

/-- Claim C10: a probe reporting a value-type tag outside 0..6 is not
rejected: construction succeeds with the decode field `None`, and the
first later poll whose query succeeds with at least one sample raises a
TypeError at value-decoding time (`getattr` with a `None` name), leaving
every log unwritten. -/
theorem C10_unknown_value_type (env : InitEnv) (bn : String) (st : Nat)
    (vt : Nat) (ps0 : List Sample) (q : QueryFn) (r : NvmlReader)
    (h : Nat) (rest : List Nat) (l : LogFile) (vt2 : Nat) (s : Sample)
    (ss : List Sample)
    (hst : st ∈ SUPPORTED_SAMPLING_TYPES)
    (hh : ∀ i, i < env.deviceCount → ∃ hd, env.getHandle i = .ok hd)
    (hop : ∀ nm, env.openLog nm = .ok ())
    (hdc : 0 < env.deviceCount)
    (hp : ∀ hd, env.probe hd = .ok (vt, ps0))
    (hvt : SAMPLE_VALUE_TYPE_TO_FIELD vt = none)
    (hf : r.field = none) (hhs : r.handles = h :: rest)
    (hl : r.logs[0]? = some l)
    (hq : q h r.last_sample_time = .ok (vt2, s :: ss)) :
    (∃ r0, NvmlReader.init env bn st = .ok r0 ∧ r0.field = none) ∧
    (r.log_samples q).2.2 =
      some (.typeError "attribute name must be string, not NoneType") ∧
    (r.log_samples q).1.logs = r.logs := by
  refine ⟨?_, ?_⟩
  · rcases init_ok_all env bn st hst hh hop hdc vt ps0 hp with
      ⟨r0, hinit, hfield, _⟩
    exact ⟨r0, hinit, by rw [hfield, hvt]⟩
  · have hlast : (s :: ss).getLast? = some ((s :: ss).getLast (by simp)) :=
      List.getLast?_eq_getLast (s :: ss) (by simp)
    rcases log_samples_proj q r with ⟨_, hlogs, _, _, _, herr⟩
    rw [herr, hlogs, hhs]
    simp only [logSamplesGo, logSamplesDevice, hq, hlast, writeSamplesAt, hl,
      hf, decodeValue]
    exact ⟨trivial, trivial⟩

/-- Claim C10, witness: the probe tag 7 yields a reader with decode field
`None`, whose first successful poll raises the TypeError. -/
theorem C10_unknown_value_type_witness :
    (∃ r0, NvmlReader.init envVT7 "log" NVML_TOTAL_POWER_SAMPLES = .ok r0 ∧
      r0.field = none) ∧
    (readerVT7.log_samples qBothOk).2.2 =
      some (.typeError "attribute name must be string, not NoneType") ∧
    (readerVT7.log_samples qBothOk).1.logs = readerVT7.logs :=
  C10_unknown_value_type envVT7 "log" NVML_TOTAL_POWER_SAMPLES 7
    [mkSample 1 0] qBothOk readerVT7 0 [] LogFile.fresh 0 (mkSample 100 1) []
    (by decide) (fun i _ => ⟨i, rfl⟩) (fun _ => rfl) (by decide) (fun _ => rfl)
    rfl rfl rfl rfl rfl

end NvQuery
